import Mathlib

/-!
Shallow embedding of `pa-uav-noma/pa-uav-noma.py`, a Monte Carlo simulator of
power allocation in a two-user UAV-NOMA downlink.

Floating-point arithmetic of the source is modelled over `ℝ`.  Random draws
(`np.random.rand`, `np.random.normal`) are modelled as explicit real-valued
inputs of the functions that consume them: each embedded function is the
deterministic transformation the source applies to its draws.
-/

namespace PaUavNoma

open Real MeasureTheory Classical

noncomputable section

/-- Monte Carlo sample count `N_mc = 10**4` (module-level parameter). -/
def N_mc : ℕ := 10 ^ 4

/-- Number of users `N_users = 2`. -/
def N_users : ℕ := 2

/-- Number of UAVs `M_uav = 1`. -/
def M_uav : ℕ := 1

/-- SNR grid in dB: `np.array(range(10, 51, 2))`, the 21 values 10, 12, …, 50. -/
def snr_dB : List ℝ := (List.range 21).map (fun i : ℕ => (10 : ℝ) + 2 * (i : ℝ))

/-- Linear SNR grid: `10**(snr_dB/10)` (elementwise). -/
def snr_linear : List ℝ := snr_dB.map (fun x => (10 : ℝ) ^ (x / 10))

/-- Path loss exponent `path_loss_exp = 2`. -/
def path_loss_exp : ℕ := 2

/-- Total power of LOS and scattered paths `P_los = 1.0`. -/
def P_los : ℝ := 1

/-- Rician factor `K = 8`. -/
def K : ℝ := 8

/-- Rician non-centrality parameter `s = sqrt(K/(K+1)*P_los)`. -/
def s : ℝ := Real.sqrt (K / (K + 1) * P_los)

/-- Rician standard deviation `sigma = P_los/sqrt(2*(K+1))`. -/
def sigma : ℝ := P_los / Real.sqrt (2 * (K + 1))

/-- Target rate of the primary user, bits/s/Hz. -/
def target_rate_primary_user : ℝ := 1

/-- Target rate of the secondary user, bits/s/Hz. -/
def target_rate_secondary_user : ℝ := 0.5

/-- Fixed power allocation factors `[0.8, 0.2]` for primary and secondary user. -/
def powerCoeff : ℝ × ℝ := (0.8, 0.2)

/-- Fly trajectory radius of the UAV in meters. -/
def radius_uav : ℝ := 1

/-- Distribution radius of users in the cell in meters. -/
def radius_user : ℝ := 2

/-- UAV height `z_r = 30.0` fixed inside `random_Position_UAV`. -/
def uav_height : ℝ := 30

/-- `random_Position_UAV` for one UAV: `theta_r = rand()*2π`, position
`(radiusUAV·cos θ, radiusUAV·sin θ, 30.0)`.  The uniform draw on `[0,1)` is
the explicit argument `u`. -/
def random_Position_UAV (radiusUAV : ℝ) (u : ℝ) : ℝ × ℝ × ℝ :=
  let theta_r := u * (Real.pi * 2)
  (radiusUAV * Real.cos theta_r, radiusUAV * Real.sin theta_r, uav_height)

/-- Angle of a sampled user: `theta_u = rand()*2π` with `u` the uniform draw. -/
def user_theta (u : ℝ) : ℝ := u * (Real.pi * 2)

/-- Radial coordinate of a sampled user: `rho_u = sqrt(rand())*radiusUser`
with `v` the uniform draw. -/
def user_rho (radiusUser : ℝ) (v : ℝ) : ℝ := Real.sqrt v * radiusUser

/-- `random_Position_Users` for one user: polar-to-Cartesian of
(`user_theta`, `user_rho`).  `u` and `v` are that user's two uniform draws. -/
def random_Position_Users_one (radiusUser : ℝ) (u v : ℝ) : ℝ × ℝ :=
  (user_rho radiusUser v * Real.cos (user_theta u),
   user_rho radiusUser v * Real.sin (user_theta u))

/-- Distance between a user at `(ux, uy)` (ground plane) and the UAV at
`(vx, vy, vz)`:  `sqrt((ux-vx)² + (uy-vy)² + vz²)`. -/
def distance_user_uav (ux uy vx vy vz : ℝ) : ℝ :=
  Real.sqrt ((ux - vx) ^ 2 + (uy - vy) ^ 2 + vz ^ 2)

/-- Small-scale fading coefficient
`ch_coeff = np.sqrt(normal(s,σ)² + 1j·normal(0,σ)²)`, the principal complex
square root of `a² + i·b²` where `a, b` are the two normal draws. -/
def ch_coeff (a b : ℝ) : ℂ :=
  ((a ^ 2 : ℂ) + Complex.I * (b ^ 2 : ℂ)) ^ ((1 : ℂ) / 2)

/-- Per-user channel gain
`h_n[uu] = |ch_coeff / complex(sqrt(1 + distance**path_loss), 0)|²`. -/
def h_gain (a b d : ℝ) (path_loss : ℕ) : ℝ :=
  (Complex.abs (ch_coeff a b / ((Real.sqrt (1 + d ^ path_loss) : ℝ) : ℂ))) ^ 2

/-- `generate_Channel` for the two users: computes each user's distance to the
UAV and channel gain from that user's pair of normal draws, then returns the
gains sorted in descending order (`sorted(h_n, reverse=True)` on two
elements is `(max, min)`).  `draws = ((a₀,b₀),(a₁,b₁))` are the four normal
draws consumed by this call; the distribution parameters `s`, `sigma` only
parametrize the draws and do not appear in the deterministic transformation. -/
def generate_Channel (draws : (ℝ × ℝ) × (ℝ × ℝ)) (u0 u1 : ℝ × ℝ)
    (uav : ℝ × ℝ × ℝ) (path_loss : ℕ) : ℝ × ℝ :=
  let d0 := distance_user_uav u0.1 u0.2 uav.1 uav.2.1 uav.2.2
  let d1 := distance_user_uav u1.1 u1.2 uav.1 uav.2.1 uav.2.2
  let h0 := h_gain draws.1.1 draws.1.2 d0 path_loss
  let h1 := h_gain draws.2.1 draws.2.2 d1 path_loss
  (max h0 h1, min h0 h1)

/-- The per-trial channel-gain pair as the source computes it:
`channelGainPrimary = np.max(generate_Channel(...))` and
`channelGainSecondary = np.min(generate_Channel(...))` are two separate
calls, each consuming fresh normal draws (`draws1`, `draws2`); the user and
UAV positions are the same for both calls. -/
def channelGains_of_trial (draws1 draws2 : (ℝ × ℝ) × (ℝ × ℝ))
    (u0 u1 : ℝ × ℝ) (uav : ℝ × ℝ × ℝ) : ℝ × ℝ :=
  ((generate_Channel draws1 u0 u1 uav path_loss_exp).1,
   (generate_Channel draws2 u0 u1 uav path_loss_exp).2)

/-- One iteration of the loop body of `calculate_Instantaneous_Rate` at SNR
value `γ` (the source reads `γ = snr_linear[sn]`): returns the tuple
`(sinr_primary, inst_rate_primary, sinr_secondary, inst_rate_secondary)`
written to index `sn` of the four arrays.  The NOMA SINR and rate of the
primary user are overwritten by the OMA values when the NOMA rate is below
`target_RatePri`. -/
def calculate_Instantaneous_Rate_point (channelPri channelSec : ℝ)
    (power : ℝ × ℝ) (target_RatePri : ℝ) (γ : ℝ) : ℝ × ℝ × ℝ × ℝ :=
  let sinr_p := γ * channelPri * power.1 / (γ * channelSec * power.2 + 1)
  let rate_p := Real.log (1 + sinr_p)
  let sinr_p2 := if rate_p < target_RatePri then γ * channelPri else sinr_p
  let rate_p2 := if rate_p < target_RatePri then
      0.5 * Real.log (1 + γ * channelPri) else rate_p
  let sinr_s := γ * channelSec * power.2
  let rate_s := Real.log (1 + sinr_s)
  (sinr_p2, rate_p2, sinr_s, rate_s)

/-- `calculate_Instantaneous_Rate`: loops `for sn in range(0, len(snrValues))`
and at each index reads the global `snr_linear[sn]` (not `snrValues[sn]`),
returning the pair of rate arrays `(inst_rate_primary, inst_rate_secondary)`.
Out-of-range reads of `snr_linear` are modelled by `getD _ 0`. -/
def calculate_Instantaneous_Rate (channelPri channelSec : ℝ)
    (snrValues : List ℝ) (power : ℝ × ℝ) (target_RatePri : ℝ) :
    List ℝ × List ℝ :=
  ((List.range snrValues.length).map (fun sn =>
      (calculate_Instantaneous_Rate_point channelPri channelSec power
        target_RatePri (snr_linear.getD sn 0)).2.1),
   (List.range snrValues.length).map (fun sn =>
      (calculate_Instantaneous_Rate_point channelPri channelSec power
        target_RatePri (snr_linear.getD sn 0)).2.2.2))

/-- One entry of `out_probability_system`: `1` if the primary rate is below
its target or the secondary rate is below its target, else `0`. -/
def out_probability_system_entry (ratePri rateSec tPri tSec : ℝ) : ℝ :=
  if ratePri < tPri ∨ rateSec < tSec then 1 else 0

/-- One entry of `out_probability_primary_user`: `1` if the primary rate is
below the primary target, else `0`. -/
def out_probability_primary_user_entry (ratePri tPri : ℝ) : ℝ :=
  if ratePri < tPri then 1 else 0

/-- One entry of `out_probability_secondary_user`: `1` if the secondary rate
is below the secondary target, else `0`. -/
def out_probability_secondary_user_entry (rateSec tSec : ℝ) : ℝ :=
  if rateSec < tSec then 1 else 0

/-- One entry of `average_rate`: `(rate_primary + rate_secondary)/2`. -/
def average_rate_entry (ratePri rateSec : ℝ) : ℝ := (ratePri + rateSec) / 2

/-- The per-trial outage row of the system, as the classification loop
`for sn in range(0, len(snr_dB))` fills it from the two rate arrays. -/
def out_probability_system_row (ratesPri ratesSec : List ℝ)
    (tPri tSec : ℝ) : List ℝ :=
  (List.range snr_dB.length).map (fun sn =>
    out_probability_system_entry (ratesPri.getD sn 0) (ratesSec.getD sn 0)
      tPri tSec)

/-- The per-trial outage row of the primary user. -/
def out_probability_primary_user_row (ratesPri : List ℝ) (tPri : ℝ) :
    List ℝ :=
  (List.range snr_dB.length).map (fun sn =>
    out_probability_primary_user_entry (ratesPri.getD sn 0) tPri)

/-- The module-level parameter block as a record: raw parameters together
with the derived quantities it computes (`snr_linear`, `s`, `sigma`). -/
structure SimulationConfig where
  cfg_N_mc : ℕ
  cfg_snr_dB : List ℝ
  cfg_snr_linear : List ℝ
  cfg_path_loss_exp : ℕ
  cfg_P_los : ℝ
  cfg_K : ℝ
  cfg_s : ℝ
  cfg_sigma : ℝ
  cfg_target_rate_primary : ℝ
  cfg_target_rate_secondary : ℝ
  cfg_powerCoeff : ℝ × ℝ
  cfg_radius_uav : ℝ
  cfg_radius_user : ℝ

/-- Configuration construction as the source performs it: the parameter block
assigns every constant and computes the derived quantities, with no
validation of any kind — every parameter value is stored unchanged and no
error path exists. -/
def mkConfig (n : ℕ) (snrdB : List ℝ) (ple : ℕ) (plos k : ℝ)
    (tPri tSec : ℝ) (power : ℝ × ℝ) (rUav rUser : ℝ) : SimulationConfig :=
  { cfg_N_mc := n
    cfg_snr_dB := snrdB
    cfg_snr_linear := snrdB.map (fun x => (10 : ℝ) ^ (x / 10))
    cfg_path_loss_exp := ple
    cfg_P_los := plos
    cfg_K := k
    cfg_s := Real.sqrt (k / (k + 1) * plos)
    cfg_sigma := plos / Real.sqrt (2 * (k + 1))
    cfg_target_rate_primary := tPri
    cfg_target_rate_secondary := tSec
    cfg_powerCoeff := power
    cfg_radius_uav := rUav
    cfg_radius_user := rUser }

/-- Evaluation of `getD` on a mapped range, used to read one entry of the
arrays the simulation loops fill. -/
theorem getD_map_range (n i : ℕ) (f : ℕ → ℝ) (h : i < n) :
    ((List.range n).map f).getD i 0 = f i := by
  rw [List.getD_eq_getElem?_getD]
  simp [h]

/-- The linear SNR grid written as a single map over indices. -/
theorem snr_linear_eq :
    snr_linear
      = (List.range 21).map (fun i : ℕ => (10:ℝ) ^ (((10:ℝ) + 2 * (i:ℝ)) / 10)) := by
  unfold snr_linear snr_dB
  rw [List.map_map]
  rfl

/-- The first linear SNR grid value: `10**(10/10) = 10`. -/
theorem snr_linear_getD_zero : snr_linear.getD 0 0 = 10 := by
  rw [snr_linear_eq, getD_map_range 21 0 _ (by norm_num)]
  rw [show ((10:ℝ) + 2 * ((0:ℕ):ℝ)) / 10 = 1 by norm_num, Real.rpow_one]

/-- The sixth linear SNR grid value: `10**(20/10) = 100`. -/
theorem snr_linear_getD_five : snr_linear.getD 5 0 = 100 := by
  rw [snr_linear_eq, getD_map_range 21 5 _ (by norm_num)]
  rw [show ((10:ℝ) + 2 * ((5:ℕ):ℝ)) / 10 = ((2:ℕ):ℝ) by push_cast; ring,
    Real.rpow_natCast]
  norm_num

/-- When the NOMA rate of the primary user is below target, the loop body
overwrites the primary SINR and rate with the OMA values. -/
theorem rate_point_oma (cp cs : ℝ) (power : ℝ × ℝ) (t γ : ℝ)
    (h : Real.log (1 + γ * cp * power.1 / (γ * cs * power.2 + 1)) < t) :
    calculate_Instantaneous_Rate_point cp cs power t γ
      = (γ * cp, 0.5 * Real.log (1 + γ * cp),
         γ * cs * power.2, Real.log (1 + γ * cs * power.2)) := by
  simp only [calculate_Instantaneous_Rate_point, if_pos h]

/-- When the NOMA rate of the primary user reaches the target, the loop body
keeps the NOMA SINR and rate of the primary user. -/
theorem rate_point_noma (cp cs : ℝ) (power : ℝ × ℝ) (t γ : ℝ)
    (h : ¬ Real.log (1 + γ * cp * power.1 / (γ * cs * power.2 + 1)) < t) :
    calculate_Instantaneous_Rate_point cp cs power t γ
      = (γ * cp * power.1 / (γ * cs * power.2 + 1),
         Real.log (1 + γ * cp * power.1 / (γ * cs * power.2 + 1)),
         γ * cs * power.2, Real.log (1 + γ * cs * power.2)) := by
  simp only [calculate_Instantaneous_Rate_point, if_neg h]

/-- Reading index `sn` of the returned primary-rate array gives the loop body
evaluated at `snr_linear[sn]`. -/
theorem calc_rate_primary_getD (cp cs : ℝ) (power : ℝ × ℝ) (t : ℝ)
    (snrValues : List ℝ) (sn : ℕ) (hsn : sn < snrValues.length) :
    (calculate_Instantaneous_Rate cp cs snrValues power t).1.getD sn 0
      = (calculate_Instantaneous_Rate_point cp cs power t
          (snr_linear.getD sn 0)).2.1 := by
  unfold calculate_Instantaneous_Rate
  exact getD_map_range _ _ _ hsn

/-- Reading index `sn` of the returned secondary-rate array gives the loop
body evaluated at `snr_linear[sn]`. -/
theorem calc_rate_secondary_getD (cp cs : ℝ) (power : ℝ × ℝ) (t : ℝ)
    (snrValues : List ℝ) (sn : ℕ) (hsn : sn < snrValues.length) :
    (calculate_Instantaneous_Rate cp cs snrValues power t).2.getD sn 0
      = (calculate_Instantaneous_Rate_point cp cs power t
          (snr_linear.getD sn 0)).2.2.2 := by
  unfold calculate_Instantaneous_Rate
  exact getD_map_range _ _ _ hsn

/-- Claim C4: with `gain_primary = 0.5`, `gain_secondary = 0.1`, power split
`(0.8, 0.2)`, `snr_linear = 10` and `target_rate_primary = 1.0`, the rate
engine takes the NOMA branch (no fallback): the primary SINR equals
`10·0.5·0.8/(10·0.1·0.2+1) = 10/3`, the primary rate equals
`ln(13/3) ≈ 1.466 ≥ 1.0`, the secondary SINR equals `0.2 = 1/5`, and the
secondary rate equals `ln(1.2) = ln(6/5) ≈ 0.182`. -/
theorem C4_concrete_scenario :
    calculate_Instantaneous_Rate_point 0.5 0.1 (0.8, 0.2) 1 10
      = (10/3, Real.log (13/3), 1/5, Real.log (6/5))
    ∧ 1 ≤ Real.log (13/3) ∧ Real.log (13/3) < 1.5
    ∧ 0 < Real.log (6/5) ∧ Real.log (6/5) < 0.2 := by
  have hge : (1:ℝ) ≤ Real.log (13/3) := by
    rw [Real.le_log_iff_exp_le (by norm_num)]
    exact le_of_lt (lt_trans Real.exp_one_lt_d9 (by norm_num))
  have hnot : ¬ Real.log (1 + (10:ℝ) * 0.5 * ((0.8:ℝ), (0.2:ℝ)).1
      / (10 * 0.1 * ((0.8:ℝ), (0.2:ℝ)).2 + 1)) < 1 := by
    rw [show (1:ℝ) + 10 * 0.5 * ((0.8:ℝ), (0.2:ℝ)).1
        / (10 * 0.1 * ((0.8:ℝ), (0.2:ℝ)).2 + 1) = 13/3 by norm_num]
    exact not_lt.mpr hge
  refine ⟨?_, hge, ?_, ?_, ?_⟩
  · rw [rate_point_noma 0.5 0.1 (0.8, 0.2) 1 10 hnot]
    norm_num
  · have hhalf : Real.exp 0.5 * Real.exp 0.5 = Real.exp 1 := by
      rw [← Real.exp_add]; norm_num
    have hx : (1.6487:ℝ) < Real.exp 0.5 := by
      nlinarith [Real.exp_one_gt_d9, Real.exp_pos 0.5]
    have h15 : Real.exp 1.5 = Real.exp 1 * Real.exp 0.5 := by
      rw [← Real.exp_add]; norm_num
    rw [Real.log_lt_iff_lt_exp (by norm_num), h15]
    nlinarith [Real.exp_one_gt_d9, Real.exp_pos 0.5]
  · exact Real.log_pos (by norm_num)
  · rw [Real.log_lt_iff_lt_exp (by norm_num)]
    have := Real.add_one_lt_exp (show (0.2:ℝ) ≠ 0 by norm_num)
    linarith

/-- Claim C5: for every SNR grid point and every pair of channel gains, the
secondary user's rate equals `ln(1 + γ·gain_secondary·α_secondary)` with
`γ = snr_linear[sn]`; no OMA fallback is ever applied to the secondary user
(the equation holds whatever branch the primary user takes). -/
theorem C5_secondary_always_noma (cp cs : ℝ) (power : ℝ × ℝ) (t : ℝ)
    (snrValues : List ℝ) (sn : ℕ) (hsn : sn < snrValues.length) :
    (calculate_Instantaneous_Rate cp cs snrValues power t).2.getD sn 0
      = Real.log (1 + snr_linear.getD sn 0 * cs * power.2) := by
  rw [calc_rate_secondary_getD cp cs power t snrValues sn hsn]
  rfl

/-- Witness for C5 at a concrete input. -/
theorem C5_witness :
    (0 < [(0:ℝ)].length)
    ∧ (calculate_Instantaneous_Rate 1 1 [0] powerCoeff 1).2.getD 0 0
        = Real.log (1 + snr_linear.getD 0 0 * 1 * powerCoeff.2) :=
  ⟨by norm_num, C5_secondary_always_noma 1 1 powerCoeff 1 [0] 0 (by norm_num)⟩

/-- Claim C3: at any SNR grid point `sn` of a trial, if the NOMA primary rate
`ln(1 + γ·gain_primary·α_primary / (γ·gain_secondary·α_secondary + 1))` with
`γ = snr_linear[sn]` is below the primary target rate, the returned primary
rate at that point is the OMA rate `0.5·ln(1 + γ·gain_primary)`; the decision
involves only that grid point's own SNR value, independent of the other grid
points. -/
theorem C3_oma_fallback (cp cs : ℝ) (power : ℝ × ℝ) (t : ℝ)
    (snrValues : List ℝ) (sn : ℕ) (hsn : sn < snrValues.length)
    (hfb : Real.log (1 + snr_linear.getD sn 0 * cp * power.1
        / (snr_linear.getD sn 0 * cs * power.2 + 1)) < t) :
    (calculate_Instantaneous_Rate cp cs snrValues power t).1.getD sn 0
      = 0.5 * Real.log (1 + snr_linear.getD sn 0 * cp) := by
  rw [calc_rate_primary_getD cp cs power t snrValues sn hsn,
    rate_point_oma cp cs power t _ hfb]

/-- Witness for C3 at a concrete input where the fallback triggers. -/
theorem C3_witness :
    (0 < [(0:ℝ)].length)
    ∧ Real.log (1 + snr_linear.getD 0 0 * 0 * powerCoeff.1
        / (snr_linear.getD 0 0 * 0 * powerCoeff.2 + 1)) < 1
    ∧ (calculate_Instantaneous_Rate 0 0 [0] powerCoeff 1).1.getD 0 0
        = 0.5 * Real.log (1 + snr_linear.getD 0 0 * 0) := by
  have hfb : Real.log (1 + snr_linear.getD 0 0 * 0 * powerCoeff.1
      / (snr_linear.getD 0 0 * 0 * powerCoeff.2 + 1)) < 1 := by
    rw [snr_linear_getD_zero]
    norm_num
  exact ⟨by norm_num, hfb, C3_oma_fallback 0 0 powerCoeff 1 [0] 0 (by norm_num) hfb⟩

/-- Claim C6: for every trial row and SNR grid point, the system outage
indicator equals 1 exactly when `rate_primary < target_rate_primary` or
`rate_secondary < target_rate_secondary`, and equals 0 exactly otherwise. -/
theorem C6_system_outage (ratesPri ratesSec : List ℝ) (tPri tSec : ℝ)
    (sn : ℕ) (hsn : sn < snr_dB.length) :
    ((out_probability_system_row ratesPri ratesSec tPri tSec).getD sn 0 = 1
      ↔ (ratesPri.getD sn 0 < tPri ∨ ratesSec.getD sn 0 < tSec))
    ∧ ((out_probability_system_row ratesPri ratesSec tPri tSec).getD sn 0 = 0
      ↔ ¬(ratesPri.getD sn 0 < tPri ∨ ratesSec.getD sn 0 < tSec)) := by
  unfold out_probability_system_row
  rw [getD_map_range _ _ _ hsn]
  unfold out_probability_system_entry
  by_cases h : ratesPri.getD sn 0 < tPri ∨ ratesSec.getD sn 0 < tSec
  · rw [if_pos h]
    exact ⟨⟨fun _ => h, fun _ => rfl⟩,
      fun h10 => absurd h10 (by norm_num), fun hn => absurd h hn⟩
  · rw [if_neg h]
    exact ⟨⟨fun h01 => absurd h01 (by norm_num), fun hh => absurd hh h⟩,
      fun _ => h, fun _ => rfl⟩

/-- Witness for C6 at a concrete input. -/
theorem C6_witness :
    (0 < snr_dB.length)
    ∧ (((out_probability_system_row [(0:ℝ)] [(0:ℝ)] 1 1).getD 0 0 = 1
        ↔ (([(0:ℝ)].getD 0 0 < 1) ∨ ([(0:ℝ)].getD 0 0 < 1)))
      ∧ ((out_probability_system_row [(0:ℝ)] [(0:ℝ)] 1 1).getD 0 0 = 0
        ↔ ¬(([(0:ℝ)].getD 0 0 < 1) ∨ ([(0:ℝ)].getD 0 0 < 1)))) :=
  ⟨by simp [snr_dB], C6_system_outage [0] [0] 1 1 0 (by simp [snr_dB])⟩

/-- Claim C9: the output of `calculate_Instantaneous_Rate` depends on the
`snrValues` argument only through its length — each SNR value is read from
the global `snr_linear` — so any two equal-length argument lists give
identical rate vectors; in particular the driver's call with `snr_dB`
instead of `snr_linear` does not change the result. -/
theorem C9_snrValues_length_only (cp cs : ℝ) (power : ℝ × ℝ) (t : ℝ) :
    (∀ sv1 sv2 : List ℝ, sv1.length = sv2.length →
      calculate_Instantaneous_Rate cp cs sv1 power t
        = calculate_Instantaneous_Rate cp cs sv2 power t)
    ∧ calculate_Instantaneous_Rate cp cs snr_dB power t
        = calculate_Instantaneous_Rate cp cs snr_linear power t := by
  have hgen : ∀ sv1 sv2 : List ℝ, sv1.length = sv2.length →
      calculate_Instantaneous_Rate cp cs sv1 power t
        = calculate_Instantaneous_Rate cp cs sv2 power t := by
    intro sv1 sv2 h
    unfold calculate_Instantaneous_Rate
    rw [h]
  exact ⟨hgen, hgen _ _ (by simp [snr_linear])⟩

/-- Witness for C9 at two concrete equal-length lists with different values. -/
theorem C9_witness :
    calculate_Instantaneous_Rate 1 1 [(1:ℝ), 2] powerCoeff 1
      = calculate_Instantaneous_Rate 1 1 [(3:ℝ), 4] powerCoeff 1 :=
  (C9_snrValues_length_only 1 1 powerCoeff 1).1 [1, 2] [3, 4] rfl

/-- Claim C1: the claim `gain_primary ≥ gain_secondary` for every trial fails
on the code as written.  The trial computes `channelGainPrimary` and
`channelGainSecondary` by two separate calls of `generate_Channel`, each
consuming fresh Rician fading draws, so the max of the first realization can
fall below the min of the second.  Concretely: with both users at the
origin, the UAV at `(1, 0, 30)`, zero draws for the first call and unit
draws for the second, the trial's primary gain (0) is strictly below its
secondary gain.  A single call is correctly sorted (second conjunct), which
is the documented intent of `generate_Channel`. -/
theorem C1_gain_ordering_violated :
    ((channelGains_of_trial ((0,0),(0,0)) ((1,0),(1,0)) (0,0) (0,0) (1,0,30)).1
      < (channelGains_of_trial ((0,0),(0,0)) ((1,0),(1,0)) (0,0) (0,0) (1,0,30)).2)
    ∧ ∀ (draws : (ℝ × ℝ) × (ℝ × ℝ)) (u0 u1 : ℝ × ℝ) (uav : ℝ × ℝ × ℝ) (ple : ℕ),
        (generate_Channel draws u0 u1 uav ple).2
          ≤ (generate_Channel draws u0 u1 uav ple).1 := by
  constructor
  · have hzero : ∀ d : ℝ, h_gain 0 0 d path_loss_exp = 0 := by
      intro d
      unfold h_gain ch_coeff
      rw [show (((0:ℝ)^2 : ℂ) + Complex.I * (((0:ℝ)^2 : ℂ))) = 0 by norm_num]
      rw [Complex.zero_cpow (by norm_num : ((1:ℂ)/2) ≠ 0)]
      simp
    have hpos : ∀ d : ℝ, 0 < h_gain 1 0 d path_loss_exp := by
      intro d
      have hd : (0:ℝ) < 1 + d ^ path_loss_exp := by
        have h2 : (0:ℝ) ≤ d ^ path_loss_exp := by
          unfold path_loss_exp
          positivity
        linarith
      unfold h_gain ch_coeff
      rw [show (((1:ℝ)^2 : ℂ) + Complex.I * (((0:ℝ)^2 : ℂ))) = 1 by norm_num]
      rw [Complex.one_cpow]
      have hc : ((Real.sqrt (1 + d ^ path_loss_exp) : ℝ) : ℂ) ≠ 0 := by
        rw [Complex.ofReal_ne_zero]
        exact (Real.sqrt_pos.mpr hd).ne'
      have hne : (1:ℂ) / ((Real.sqrt (1 + d ^ path_loss_exp) : ℝ) : ℂ) ≠ 0 :=
        div_ne_zero one_ne_zero hc
      exact pow_pos (Complex.abs.pos hne) 2
    simp only [channelGains_of_trial, generate_Channel]
    rw [hzero]
    simp only [max_self, min_self]
    exact hpos _
  · intro draws u0 u1 uav ple
    simp only [generate_Channel]
    exact min_le_max

/-- Claim C10: there are channel gains, a power split and an SNR grid point
(the first one, `snr_linear[0] = 10`) where the OMA fallback fires and the
fallback rate `0.5·ln(1 + γ·gain_primary)` is itself still below the primary
target rate, so the primary outage indicator is 1: the fallback does not
guarantee the primary target.  Concretely `gain_primary = 3/5`,
`gain_secondary = 2`, the program's power split and target. -/
theorem C10_fallback_can_still_outage :
    snr_linear.getD 0 0 = 10
    ∧ Real.log (1 + 10 * (3/5) * powerCoeff.1 / (10 * 2 * powerCoeff.2 + 1))
        < target_rate_primary_user
    ∧ (calculate_Instantaneous_Rate_point (3/5) 2 powerCoeff
        target_rate_primary_user 10).2.1 = 0.5 * Real.log 7
    ∧ (calculate_Instantaneous_Rate_point (3/5) 2 powerCoeff
        target_rate_primary_user 10).2.1 < target_rate_primary_user
    ∧ out_probability_primary_user_entry
        ((calculate_Instantaneous_Rate_point (3/5) 2 powerCoeff
          target_rate_primary_user 10).2.1) target_rate_primary_user = 1 := by
  have hfb : Real.log (1 + 10 * (3/5) * powerCoeff.1
      / (10 * 2 * powerCoeff.2 + 1)) < target_rate_primary_user := by
    unfold powerCoeff target_rate_primary_user
    rw [show (1:ℝ) + 10 * (3/5) * ((0.8:ℝ), (0.2:ℝ)).1
        / (10 * 2 * ((0.8:ℝ), (0.2:ℝ)).2 + 1) = 49/25 by norm_num]
    rw [Real.log_lt_iff_lt_exp (by norm_num)]
    exact lt_trans (by norm_num) Real.exp_one_gt_d9
  have hrate : (calculate_Instantaneous_Rate_point (3/5) 2 powerCoeff
      target_rate_primary_user 10).2.1 = 0.5 * Real.log 7 := by
    rw [rate_point_oma (3/5) 2 powerCoeff target_rate_primary_user 10 hfb]
    norm_num
  have hout : (0.5:ℝ) * Real.log 7 < target_rate_primary_user := by
    unfold target_rate_primary_user
    have h7 : Real.log 7 < 2 := by
      rw [Real.log_lt_iff_lt_exp (by norm_num)]
      have he2 : Real.exp 2 = Real.exp 1 * Real.exp 1 := by
        rw [← Real.exp_add]; norm_num
      nlinarith [Real.exp_one_gt_d9]
    linarith
  refine ⟨snr_linear_getD_zero, hfb, hrate, ?_, ?_⟩
  · rw [hrate]; exact hout
  · unfold out_probability_primary_user_entry
    rw [hrate, if_pos hout]

/-- Claim C8: the claim that invalid configurations are rejected at
construction time fails on the code: the parameter block performs no
validation whatsoever.  With power coefficients summing to 1.1 and a
negative user radius, construction succeeds and every value is stored
unchanged (no error, no clamping). -/
theorem C8_no_validation_counterexample :
    (mkConfig N_mc snr_dB path_loss_exp P_los K target_rate_primary_user
        target_rate_secondary_user (0.8, 0.3) radius_uav (-2)).cfg_powerCoeff
      = (0.8, 0.3)
    ∧ (mkConfig N_mc snr_dB path_loss_exp P_los K target_rate_primary_user
        target_rate_secondary_user (0.8, 0.3) radius_uav (-2)).cfg_radius_user
      = -2
    ∧ (0.8 : ℝ) + 0.3 ≠ 1 ∧ (-2 : ℝ) < 0 := by
  refine ⟨rfl, rfl, by norm_num, by norm_num⟩

/-- Claim C8 amended: configuration construction is total and stores every
parameter unchanged — the program neither validates nor clamps any value. -/
theorem C8_amended_config_total (n : ℕ) (snrdB : List ℝ) (ple : ℕ)
    (plos k tPri tSec : ℝ) (power : ℝ × ℝ) (rUav rUser : ℝ) :
    (mkConfig n snrdB ple plos k tPri tSec power rUav rUser).cfg_N_mc = n
    ∧ (mkConfig n snrdB ple plos k tPri tSec power rUav rUser).cfg_snr_dB = snrdB
    ∧ (mkConfig n snrdB ple plos k tPri tSec power rUav rUser).cfg_path_loss_exp = ple
    ∧ (mkConfig n snrdB ple plos k tPri tSec power rUav rUser).cfg_P_los = plos
    ∧ (mkConfig n snrdB ple plos k tPri tSec power rUav rUser).cfg_K = k
    ∧ (mkConfig n snrdB ple plos k tPri tSec power rUav rUser).cfg_target_rate_primary = tPri
    ∧ (mkConfig n snrdB ple plos k tPri tSec power rUav rUser).cfg_target_rate_secondary = tSec
    ∧ (mkConfig n snrdB ple plos k tPri tSec power rUav rUser).cfg_powerCoeff = power
    ∧ (mkConfig n snrdB ple plos k tPri tSec power rUav rUser).cfg_radius_uav = rUav
    ∧ (mkConfig n snrdB ple plos k tPri tSec power rUav rUser).cfg_radius_user = rUser :=
  ⟨rfl, rfl, rfl, rfl, rfl, rfl, rfl, rfl, rfl, rfl⟩

/-- Claim C2's counterexample: the primary rate is not non-decreasing in the
SNR grid value.  With gains `(11/5, 5)`, the program's power split and
target, the engine falls back to OMA at `γ = 10` (the first grid value),
giving `0.5·ln 23 ≈ 1.57`, but takes the NOMA branch at `γ = 100` (the sixth
grid value), giving `ln(277/101) ≈ 1.01`: the rate strictly decreases as SNR
grows from 10 to 100. -/
theorem C2_rate_monotonicity_counterexample :
    ((10:ℝ) ≤ 100) ∧ snr_linear.getD 0 0 = 10 ∧ snr_linear.getD 5 0 = 100
    ∧ (calculate_Instantaneous_Rate_point (11/5) 5 powerCoeff
        target_rate_primary_user 100).2.1
      < (calculate_Instantaneous_Rate_point (11/5) 5 powerCoeff
        target_rate_primary_user 10).2.1 := by
  have hfb10 : Real.log (1 + (10:ℝ) * (11/5) * powerCoeff.1
      / (10 * 5 * powerCoeff.2 + 1)) < target_rate_primary_user := by
    unfold powerCoeff target_rate_primary_user
    rw [show (1:ℝ) + 10 * (11/5) * ((0.8:ℝ), (0.2:ℝ)).1
        / (10 * 5 * ((0.8:ℝ), (0.2:ℝ)).2 + 1) = 13/5 by norm_num]
    rw [Real.log_lt_iff_lt_exp (by norm_num)]
    exact lt_trans (by norm_num) Real.exp_one_gt_d9
  have hnofb100 : ¬ Real.log (1 + (100:ℝ) * (11/5) * powerCoeff.1
      / (100 * 5 * powerCoeff.2 + 1)) < target_rate_primary_user := by
    unfold powerCoeff target_rate_primary_user
    rw [show (1:ℝ) + 100 * (11/5) * ((0.8:ℝ), (0.2:ℝ)).1
        / (100 * 5 * ((0.8:ℝ), (0.2:ℝ)).2 + 1) = 277/101 by norm_num]
    rw [not_lt, Real.le_log_iff_exp_le (by norm_num)]
    exact le_of_lt (lt_trans Real.exp_one_lt_d9 (by norm_num))
  have h100 : (calculate_Instantaneous_Rate_point (11/5) 5 powerCoeff
      target_rate_primary_user 100).2.1 = Real.log (277/101) := by
    rw [rate_point_noma (11/5) 5 powerCoeff target_rate_primary_user 100 hnofb100]
    unfold powerCoeff
    norm_num
  have h10 : (calculate_Instantaneous_Rate_point (11/5) 5 powerCoeff
      target_rate_primary_user 10).2.1 = 0.5 * Real.log 23 := by
    rw [rate_point_oma (11/5) 5 powerCoeff target_rate_primary_user 10 hfb10]
    norm_num
  refine ⟨by norm_num, snr_linear_getD_zero, snr_linear_getD_five, ?_⟩
  rw [h100, h10]
  have hsq : Real.log ((277/101 : ℝ) ^ 2) < Real.log 23 :=
    Real.log_lt_log (by positivity) (by norm_num)
  rw [Real.log_pow] at hsq
  push_cast at hsq
  linarith

/-- Claim C2 amended: for fixed non-negative channel gains and power split,
the secondary rate is non-decreasing in the SNR value, and the primary rate
is non-decreasing between two SNR values whenever the engine takes the same
branch (NOMA or OMA fallback) at both; when the fallback decision flips, the
primary rate may decrease (see the counterexample). -/
theorem C2_rate_monotonicity_amended (cp cs t γ1 γ2 : ℝ) (power : ℝ × ℝ)
    (hcp : 0 ≤ cp) (hcs : 0 ≤ cs) (hp1 : 0 ≤ power.1) (hp2 : 0 ≤ power.2)
    (hγ1 : 0 ≤ γ1) (hγ12 : γ1 ≤ γ2) :
    ((calculate_Instantaneous_Rate_point cp cs power t γ1).2.2.2
      ≤ (calculate_Instantaneous_Rate_point cp cs power t γ2).2.2.2)
    ∧ ((Real.log (1 + γ1 * cp * power.1 / (γ1 * cs * power.2 + 1)) < t ↔
        Real.log (1 + γ2 * cp * power.1 / (γ2 * cs * power.2 + 1)) < t) →
      (calculate_Instantaneous_Rate_point cp cs power t γ1).2.1
        ≤ (calculate_Instantaneous_Rate_point cp cs power t γ2).2.1) := by
  have hγ2 : 0 ≤ γ2 := le_trans hγ1 hγ12
  have hs1 : (0:ℝ) ≤ γ1 * cs * power.2 := mul_nonneg (mul_nonneg hγ1 hcs) hp2
  have hs2 : (0:ℝ) ≤ γ2 * cs * power.2 := mul_nonneg (mul_nonneg hγ2 hcs) hp2
  have hmulsec : γ1 * cs * power.2 ≤ γ2 * cs * power.2 :=
    mul_le_mul_of_nonneg_right (mul_le_mul_of_nonneg_right hγ12 hcs) hp2
  constructor
  · simp only [calculate_Instantaneous_Rate_point]
    exact Real.log_le_log (by linarith) (by linarith)
  · intro hiff
    have hden1 : (0:ℝ) < γ1 * cs * power.2 + 1 := by linarith
    have hden2 : (0:ℝ) < γ2 * cs * power.2 + 1 := by linarith
    have hnum1 : (0:ℝ) ≤ γ1 * cp * power.1 :=
      mul_nonneg (mul_nonneg hγ1 hcp) hp1
    have hS : γ1 * cp * power.1 / (γ1 * cs * power.2 + 1)
        ≤ γ2 * cp * power.1 / (γ2 * cs * power.2 + 1) := by
      rw [div_le_div_iff₀ hden1 hden2]
      nlinarith [mul_nonneg (sub_nonneg.mpr hγ12) (mul_nonneg hcp hp1)]
    have hS1 : (0:ℝ) ≤ γ1 * cp * power.1 / (γ1 * cs * power.2 + 1) :=
      div_nonneg hnum1 hden1.le
    by_cases hb : Real.log (1 + γ1 * cp * power.1 / (γ1 * cs * power.2 + 1)) < t
    · have hb2 := hiff.mp hb
      rw [rate_point_oma cp cs power t γ1 hb, rate_point_oma cp cs power t γ2 hb2]
      dsimp only
      have hcp1 : (0:ℝ) ≤ γ1 * cp := mul_nonneg hγ1 hcp
      have hcp12 : γ1 * cp ≤ γ2 * cp := mul_le_mul_of_nonneg_right hγ12 hcp
      have := Real.log_le_log (show (0:ℝ) < 1 + γ1 * cp by linarith)
        (show (1:ℝ) + γ1 * cp ≤ 1 + γ2 * cp by linarith)
      linarith
    · have hb2 : ¬ Real.log (1 + γ2 * cp * power.1 / (γ2 * cs * power.2 + 1)) < t :=
        fun h => hb (hiff.mpr h)
      rw [rate_point_noma cp cs power t γ1 hb, rate_point_noma cp cs power t γ2 hb2]
      dsimp only
      exact Real.log_le_log (by linarith) (by linarith)

/-- Witness for the amended C2 at a concrete input (target 0, so both SNR
values take the NOMA branch). -/
theorem C2_witness :
    ((calculate_Instantaneous_Rate_point 1 1 powerCoeff 0 1).2.2.2
      ≤ (calculate_Instantaneous_Rate_point 1 1 powerCoeff 0 2).2.2.2)
    ∧ ((calculate_Instantaneous_Rate_point 1 1 powerCoeff 0 1).2.1
      ≤ (calculate_Instantaneous_Rate_point 1 1 powerCoeff 0 2).2.1) := by
  have h := C2_rate_monotonicity_amended 1 1 0 1 2 powerCoeff (by norm_num)
    (by norm_num) (by norm_num [powerCoeff]) (by norm_num [powerCoeff])
    (by norm_num) (by norm_num)
  refine ⟨h.1, h.2 ?_⟩
  have h1 : ¬ Real.log (1 + 1 * 1 * powerCoeff.1 / (1 * 1 * powerCoeff.2 + 1)) < 0 :=
    not_lt.mpr (Real.log_nonneg (by norm_num [powerCoeff]))
  have h2 : ¬ Real.log (1 + 2 * 1 * powerCoeff.1 / (2 * 1 * powerCoeff.2 + 1)) < 0 :=
    not_lt.mpr (Real.log_nonneg (by norm_num [powerCoeff]))
  exact iff_of_false h1 h2

/-- Claim C7: the sampled user angle `theta_u = U·2π` is uniform on
`[0, 2π)` (for every subinterval `[a,b) ⊆ [0,2π)`, the uniform draw lands
in it with probability `(b-a)/(2π)`), and the squared radial coordinate
`rho_u² = (sqrt(V)·r)²` is uniform on `[0, r²)` (probability `(d-c)/r²` for
every `[c,d) ⊆ [0,r²)`), which is exactly the area-uniform distribution on
the disc of radius `r`; the sampled position is the polar point of these
two coordinates. -/
theorem C7_uniform_disc_sampling (a b r c d : ℝ) (ha : 0 ≤ a) (hab : a ≤ b)
    (hb : b ≤ 2 * Real.pi) (hr : 0 < r) (hc : 0 ≤ c) (hcd : c ≤ d)
    (hd : d ≤ r ^ 2) :
    volume {u ∈ Set.Ico (0:ℝ) 1 | user_theta u ∈ Set.Ico a b}
        = ENNReal.ofReal ((b - a) / (2 * Real.pi))
    ∧ volume {v ∈ Set.Ico (0:ℝ) 1 | (user_rho r v) ^ 2 ∈ Set.Ico c d}
        = ENNReal.ofReal ((d - c) / r ^ 2)
    ∧ ∀ u v : ℝ, random_Position_Users_one r u v
        = (user_rho r v * Real.cos (user_theta u),
           user_rho r v * Real.sin (user_theta u)) := by
  have hπ : (0:ℝ) < Real.pi := Real.pi_pos
  have h2π : (0:ℝ) < Real.pi * 2 := by linarith
  refine ⟨?_, ?_, fun u v => rfl⟩
  · have hset : {u ∈ Set.Ico (0:ℝ) 1 | user_theta u ∈ Set.Ico a b}
        = Set.Ico (a / (Real.pi * 2)) (b / (Real.pi * 2)) := by
      ext u
      simp only [Set.mem_setOf_eq, Set.mem_Ico, user_theta]
      constructor
      · rintro ⟨⟨_, _⟩, hau, hub⟩
        exact ⟨(div_le_iff₀ h2π).mpr hau, (lt_div_iff₀ h2π).mpr hub⟩
      · rintro ⟨h1, h2⟩
        have hu0 : 0 ≤ u := le_trans (div_nonneg ha h2π.le) h1
        have hu1 : u < 1 := lt_of_lt_of_le h2 (by
          rw [div_le_one h2π]; linarith)
        exact ⟨⟨hu0, hu1⟩, (div_le_iff₀ h2π).mp h1, (lt_div_iff₀ h2π).mp h2⟩
    rw [hset, Real.volume_Ico]
    congr 1
    rw [mul_comm 2 Real.pi]
    ring
  · have hr2 : (0:ℝ) < r ^ 2 := by positivity
    have hset : {v ∈ Set.Ico (0:ℝ) 1 | (user_rho r v) ^ 2 ∈ Set.Ico c d}
        = Set.Ico (c / r ^ 2) (d / r ^ 2) := by
      ext v
      simp only [Set.mem_setOf_eq, Set.mem_Ico, user_rho]
      constructor
      · rintro ⟨⟨hv0, hv1⟩, hcv, hvd⟩
        rw [mul_pow, Real.sq_sqrt hv0] at hcv hvd
        exact ⟨(div_le_iff₀ hr2).mpr hcv, (lt_div_iff₀ hr2).mpr hvd⟩
      · rintro ⟨h1, h2⟩
        have hv0 : 0 ≤ v := le_trans (div_nonneg hc hr2.le) h1
        have hv1 : v < 1 := lt_of_lt_of_le h2 (by rw [div_le_one hr2]; exact hd)
        refine ⟨⟨hv0, hv1⟩, ?_, ?_⟩
        · rw [mul_pow, Real.sq_sqrt hv0]
          exact (div_le_iff₀ hr2).mp h1
        · rw [mul_pow, Real.sq_sqrt hv0]
          exact (lt_div_iff₀ hr2).mp h2
    rw [hset, Real.volume_Ico]
    congr 1
    ring

/-- Witness for C7: the full circle of angles and the full range of squared
radii at cell radius 2. -/
theorem C7_witness :
    (volume {u ∈ Set.Ico (0:ℝ) 1 | user_theta u ∈ Set.Ico 0 (2 * Real.pi)}
        = ENNReal.ofReal ((2 * Real.pi - 0) / (2 * Real.pi))
      ∧ volume {v ∈ Set.Ico (0:ℝ) 1 | (user_rho 2 v) ^ 2 ∈ Set.Ico 0 4}
        = ENNReal.ofReal ((4 - 0) / (2:ℝ) ^ 2)
      ∧ ∀ u v : ℝ, random_Position_Users_one 2 u v
        = (user_rho 2 v * Real.cos (user_theta u),
           user_rho 2 v * Real.sin (user_theta u))) :=
  C7_uniform_disc_sampling 0 (2 * Real.pi) 2 0 4 le_rfl (by positivity) le_rfl
    (by norm_num) le_rfl (by norm_num) (by norm_num)

end

end PaUavNoma
